import Mathlib

/-!
Verification of the real-time interpreter client (App.tsx and companions).

This file shallowly embeds the parts of the source that the specification's
claims are about: the playback scheduler driven by `nextStartTimeRef` and
`sourcesRef`, the per-turn transcript accumulator `handleTranscription`, the
browser-TTS fallback `speakText` with its language resolution, and the
`onmessage` / `onerror` channel callbacks.  Device time is modelled as a
rational number (the audio context's `currentTime` in seconds), wall-clock
time (`Date.now()`) as a natural number.
-/

namespace Interp

/-!
The source manipulates strings through JavaScript built-ins
(`toLowerCase`, `startsWith`, `trim`, `split('-')[0]`, `includes`).  They
are modelled here by structural recursion over the character list (for the
ASCII fragment the source's language tags and error messages live in), so
every definition evaluates by kernel reduction.
-/

/-- `pre.isPrefixOf`-style check over character lists. -/
def jsStartsWithL (pre : List Char) : List Char → Bool
  | [] => pre.isEmpty
  | c :: cs =>
    match pre with
    | [] => true
    | p :: ps => p = c && jsStartsWithL ps cs

/-- JS `s.startsWith(pre)`. -/
def jsStartsWith (s pre : String) : Bool := jsStartsWithL pre.data s.data

/-- JS `s.toLowerCase()` (ASCII). -/
def jsToLower (s : String) : String := ⟨s.data.map Char.toLower⟩

/-- JS `s.trim()`: strip leading and trailing whitespace. -/
def jsTrim (s : String) : String :=
  ⟨((s.data.dropWhile Char.isWhitespace).reverse.dropWhile Char.isWhitespace).reverse⟩

/-- JS `s.split('-')[0]`: the part of the tag before the first dash. -/
def baseOf (s : String) : String := ⟨s.data.takeWhile (fun c => c ≠ '-')⟩

/-- Occurrence of `pat` in a character list. -/
def hasSubL (pat : List Char) : List Char → Bool
  | [] => pat.isEmpty
  | c :: cs => jsStartsWithL pat (c :: cs) || hasSubL pat cs

/-- JS `s.includes(pat)`. -/
def jsIncludes (s pat : String) : Bool := hasSubL pat.data s.data

/-- The `LANGUAGE_LOCALES` table of the source (language name to locale). -/
def LANGUAGE_LOCALES : String → Option String
  | "English" => some "en-US"
  | "French" => some "fr-FR"
  | "Spanish" => some "es-ES"
  | "German" => some "de-DE"
  | "Italian" => some "it-IT"
  | "Chinese" => some "zh-CN"
  | "Japanese" => some "ja-JP"
  | "Arabic" => some "ar-SA"
  | "Russian" => some "ru-RU"
  | "Portuguese" => some "pt-PT"
  | "Dutch" => some "nl-NL"
  | _ => none

/-- The short-code table inside `mapLanguageCodeToLocale`. -/
def shortCodeLocales : String → Option String
  | "en" => some "en-US"
  | "fr" => some "fr-FR"
  | "es" => some "es-ES"
  | "de" => some "de-DE"
  | "it" => some "it-IT"
  | "zh" => some "zh-CN"
  | "ja" => some "ja-JP"
  | "ar" => some "ar-SA"
  | "ru" => some "ru-RU"
  | "pt" => some "pt-PT"
  | "nl" => some "nl-NL"
  | _ => none

/-- `mapLanguageCodeToLocale` of the source: an absent or empty (falsy) code
yields `undefined`; otherwise the part before the first dash, lowercased, is
looked up in the short-code table. -/
def mapLanguageCodeToLocale (shortCode : String) : Option String :=
  if shortCode = "" then none
  else shortCodeLocales (jsToLower (baseOf shortCode))

/-- `TranscriptItem.source` field (`'user' | 'model'`). -/
inductive Source where
  | user
  | model
deriving DecidableEq, Repr

/-- The `TranscriptItem` interface of the source. -/
structure TranscriptItem where
  id : String
  source : Source
  text : String
  language : Option String
  isFinal : Bool
  timestamp : Nat
deriving DecidableEq, Repr

/-- Settings captured by the callbacks through refs
(`targetLanguageRef`, `useBrowserTTSRef`). -/
structure Config where
  targetLanguage : String
  useBrowserTTS : Bool
deriving DecidableEq, Repr

/-- The ambient clocks a callback invocation reads: the output audio
context's `currentTime` (device time, seconds) and `Date.now()`. -/
structure Env where
  deviceNow : ℚ
  wallClock : Nat
deriving DecidableEq, Repr

/-- One output buffer handed to `ctx.createBufferSource()`: the identity of
the node, the device time passed to `source.start`, and the buffer's
duration in seconds. -/
structure SchedBuffer where
  id : Nat
  start : ℚ
  duration : ℚ
deriving DecidableEq, Repr

/-- The playback-scheduler state of the source: `nextStartTime` is
`nextStartTimeRef.current`, `sources` is `sourcesRef.current` (the active
set).  `started` records every `source.start(t)` call issued and `stopped`
every `src.stop()` call, so theorems can speak about the scheduling and
stopping history; `nextId` numbers the created source nodes. -/
structure SchedState where
  nextStartTime : ℚ
  nextId : Nat
  sources : List SchedBuffer
  started : List SchedBuffer
  stopped : List SchedBuffer
deriving DecidableEq, Repr

/-- Scheduler state at session start: cursor at the device-time origin,
no active sources. -/
def initSched : SchedState :=
  { nextStartTime := 0, nextId := 0, sources := [], started := [], stopped := [] }

/-- `nextStartTimeRef.current = Math.max(nextStartTimeRef.current, ctx.currentTime)`. -/
def clampCursor (now : ℚ) (sc : SchedState) : SchedState :=
  { sc with nextStartTime := max sc.nextStartTime now }

/-- `source.start(nextStartTimeRef.current); nextStartTimeRef.current +=
audioBuffer.duration; sourcesRef.current.add(source)`. -/
def startBuffer (d : ℚ) (sc : SchedState) : SchedState :=
  let b : SchedBuffer := { id := sc.nextId, start := sc.nextStartTime, duration := d }
  { sc with nextStartTime := sc.nextStartTime + d, nextId := sc.nextId + 1,
            sources := b :: sc.sources, started := sc.started ++ [b] }

/-- One complete enqueue of a decoded buffer of duration `d` at device time
`now`: clamp the cursor to "now", then start the buffer at the cursor. -/
def enqueue (now d : ℚ) (sc : SchedState) : SchedState :=
  startBuffer d (clampCursor now sc)

/-- The `serverContent.interrupted` handler's scheduler effect:
`sourcesRef.current.forEach(src => src.stop()); sourcesRef.current.clear();
nextStartTimeRef.current = 0`. -/
def flushAndStop (sc : SchedState) : SchedState :=
  { sc with sources := [], nextStartTime := 0, stopped := sc.stopped ++ sc.sources }

/-- The `'ended'` listener of a source node: `sourcesRef.current.delete(source)`. -/
def endBuffer (i : Nat) (sc : SchedState) : SchedState :=
  { sc with sources := sc.sources.filter (fun b => b.id ≠ i) }

/-- Run a sequence of enqueues; each list entry is the device time at which
the message arrives and the decoded buffer's duration. -/
def runEnqueues : SchedState → List (ℚ × ℚ) → SchedState
  | sc, [] => sc
  | sc, p :: rest => runEnqueues (enqueue p.1 p.2 sc) rest

/-- Arrival discipline under which playback never drains: each buffer is
enqueued while the device clock has not yet passed the cursor. -/
def arrivalsOnTime : ℚ → List (ℚ × ℚ) → Prop
  | _, [] => True
  | c, p :: rest => p.1 ≤ c ∧ arrivalsOnTime (max c p.1 + p.2) rest

/-- `message.serverContent.inputTranscription`: `text` and `languageCode`
fields, each possibly absent.  A present-but-empty string is falsy in the
source's guards and is modelled as `some ""`. -/
structure InputTranscription where
  text : Option String := none
  languageCode : Option String := none
deriving DecidableEq, Repr

/-- `message.serverContent.outputTranscription`. -/
structure OutputTranscription where
  text : Option String := none
deriving DecidableEq, Repr

/-- The inbound channel message shape used by `onmessage` /
`handleTranscription`: transcription parts, the `turnComplete` and
`interrupted` flags, and the first part's inline audio payload (a byte
sequence, after base64 decoding). -/
structure ServerMsg where
  inputTranscription : Option InputTranscription := none
  outputTranscription : Option OutputTranscription := none
  turnComplete : Bool := false
  interrupted : Bool := false
  audioData : Option (List Nat) := none
deriving DecidableEq, Repr

/-- One call of `speakText`: the text spoken, the `utterance.lang` chosen,
and the `isFrenchOutput` flag it was invoked with. -/
structure SpeakReq where
  text : String
  lang : String
  isFrenchOutput : Bool
deriving DecidableEq, Repr

/-- An inbound channel error (`onerror`): whether the delivered value is an
`Error` instance, and its message. -/
structure ChannelError where
  isErrorInstance : Bool
  message : String
deriving DecidableEq, Repr

/-- The mutable session state the claims are about: the scheduler state,
the two per-turn accumulation refs (`currentInputTransRef`,
`currentOutputTransRef`), the detected input language
(`currentInputLanguageRef`), the persistent `lastClientLanguageRef`, the
finalized transcript list, the two streaming text values, the log of
`speakText` calls, the user-visible `error` state, the connection flag, the
console log, and a count of `speechSynthesis.cancel()` calls. -/
structure AppState where
  sched : SchedState
  currentInputTrans : String
  currentOutputTrans : String
  currentInputLanguage : Option String
  lastClientLanguage : String
  transcripts : List TranscriptItem
  streamingUserText : String
  streamingModelText : String
  speakRequests : List SpeakReq
  errorMsg : Option String
  isConnected : Bool
  logs : List String
  speechCancels : Nat
deriving DecidableEq, Repr

/-- The state right after `onopen`: empty accumulators,
`lastClientLanguageRef` at its `'en-US'` default, connected. -/
def initApp : AppState :=
  { sched := initSched, currentInputTrans := "", currentOutputTrans := "",
    currentInputLanguage := none, lastClientLanguage := "en-US",
    transcripts := [], streamingUserText := "", streamingModelText := "",
    speakRequests := [], errorMsg := none, isConnected := true,
    logs := [], speechCancels := 0 }

/-- The `utterance.lang` chosen by `speakText`, given the target-language
setting, the current `lastClientLanguageRef` value and the `isFrenchOutput`
argument. -/
def resolveSpeakLang (cfg : Config) (lastClientLanguage : String)
    (isFrenchOutput : Bool) : String :=
  if isFrenchOutput then "fr-FR"
  else if cfg.targetLanguage ≠ "Auto" ∧ (LANGUAGE_LOCALES cfg.targetLanguage).isSome then
    (LANGUAGE_LOCALES cfg.targetLanguage).getD ""
  else
    match mapLanguageCodeToLocale lastClientLanguage with
    | some detectedLocale => detectedLocale
    | none => "en-US"

/-- `speakText(text, isFrenchOutput)`: issue one speech-synthesis request
(the speech-synthesis service is modelled as always available). -/
def speakText (cfg : Config) (s : AppState) (text : String)
    (isFrenchOutput : Bool) : AppState :=
  { s with speakRequests := s.speakRequests ++
      [{ text := text, lang := resolveSpeakLang cfg s.lastClientLanguage isFrenchOutput,
         isFrenchOutput := isFrenchOutput }] }

/-- The input-transcription section of `handleTranscription`: append truthy
text to the user accumulator, and on a truthy `languageCode` store it as the
turn's detected input language and, when it does not start with `fr`,
overwrite `lastClientLanguageRef`. -/
def applyInputTrans (s : AppState) (m : ServerMsg) : AppState :=
  match m.inputTranscription with
  | none => s
  | some itc =>
    let s1 :=
      match itc.text with
      | some t =>
        if t = "" then s
        else { s with currentInputTrans := s.currentInputTrans ++ t,
                      streamingUserText := s.currentInputTrans ++ t }
      | none => s
    match itc.languageCode with
    | some code =>
      if code = "" then s1
      else
        let s2 := { s1 with currentInputLanguage := some code }
        if jsStartsWith (jsToLower code) "fr" then s2
        else { s2 with lastClientLanguage := code }
    | none => s1

/-- The output-transcription section of `handleTranscription`: append
truthy text to the model accumulator. -/
def applyOutputTrans (s : AppState) (m : ServerMsg) : AppState :=
  match m.outputTranscription with
  | none => s
  | some ot =>
    match ot.text with
    | some t =>
      if t = "" then s
      else { s with currentOutputTrans := s.currentOutputTrans ++ t,
                    streamingModelText := s.currentOutputTrans ++ t }
    | none => s

/-- The turn-complete section of `handleTranscription`: finalize the two
accumulators into transcript items, trigger the browser-TTS fallback for
the model text, and clear the buffers that were finalized. -/
def applyTurnComplete (env : Env) (cfg : Config) (s : AppState)
    (m : ServerMsg) : AppState :=
  if m.turnComplete then
    let userInput := jsTrim s.currentInputTrans
    let modelOutput := jsTrim s.currentOutputTrans
    let detectedInputLang := s.currentInputLanguage.getD ""
    let isFrenchInput := jsStartsWith (jsToLower detectedInputLang) "fr"
    let isFrenchOutput := !isFrenchInput
    let s1 :=
      if userInput = "" then s
      else { s with
        transcripts := s.transcripts ++
          [{ id := toString env.wallClock ++ "-user", source := Source.user,
             text := userInput, language := s.currentInputLanguage,
             isFinal := true, timestamp := env.wallClock }],
        currentInputTrans := "", currentInputLanguage := none,
        streamingUserText := "" }
    if modelOutput = "" then s1
    else
      let s2 := { s1 with
        transcripts := s1.transcripts ++
          [{ id := toString env.wallClock ++ "-model", source := Source.model,
             text := modelOutput, language := none,
             isFinal := true, timestamp := env.wallClock }] }
      let s3 := if cfg.useBrowserTTS then speakText cfg s2 modelOutput isFrenchOutput else s2
      { s3 with currentOutputTrans := "", streamingModelText := "" }
  else s

/-- `handleTranscription(message)`: the three sections in source order. -/
def handleTranscription (env : Env) (cfg : Config) (s : AppState)
    (m : ServerMsg) : AppState :=
  applyTurnComplete env cfg (applyOutputTrans (applyInputTrans s m) m) m

/-- Modelled from the spec: the repository imports `decodeAudioData` from
`utils/audioUtils`, which is not among the provided sources.  Per the spec
(§4.2), decoding fails with a `DecodeError` when the payload length is not
a multiple of the sample width (2 bytes, signed 16-bit samples); otherwise
it yields a playable buffer whose duration is `numSamples / sampleRate`
seconds.  Only the duration is relevant to the scheduler, so the decoded
buffer is represented by it. -/
def decodeAudioData (bytes : List Nat) (sampleRate : Nat) : Except String ℚ :=
  if bytes.length % 2 = 0 then
    Except.ok (((bytes.length : ℚ) / 2) / (sampleRate : ℚ))
  else Except.error "DecodeError"

/-- The audio section of `onmessage`: when the message carries audio and
browser TTS is off, clamp the cursor to the device clock and decode the
payload; on success schedule it, on failure (the decode is wrapped in a
`try`/`catch`) log the error and let the message's processing continue. -/
def applyAudio (cfg : Config) (env : Env) (s : AppState) (m : ServerMsg) : AppState :=
  match m.audioData with
  | some bytes =>
    if cfg.useBrowserTTS then s
    else
      let sa := { s with sched := clampCursor env.deviceNow s.sched }
      match decodeAudioData bytes 24000 with
      | Except.ok dur => { sa with sched := startBuffer dur sa.sched }
      | Except.error e => { sa with logs := sa.logs ++ ["Audio decoding error: " ++ e] }
  | none => s

/-- The `serverContent.interrupted` section of `onmessage`: flush the
scheduler and, when browser TTS is on, cancel outstanding synthesis. -/
def applyInterrupted (cfg : Config) (s : AppState) (m : ServerMsg) : AppState :=
  if m.interrupted then
    { s with sched := flushAndStop s.sched,
             speechCancels := if cfg.useBrowserTTS then s.speechCancels + 1 else s.speechCancels }
  else s

/-- The `onmessage` callback: transcription handling (wrapped in a
`try`/`catch` in the source), then the audio section, then the
interruption section, in source order. -/
def onmessage (cfg : Config) (env : Env) (s : AppState) (m : ServerMsg) : AppState :=
  applyInterrupted cfg (applyAudio cfg env (handleTranscription env cfg s m) m) m

/-- The `onerror` callback: log, then classify the error message. -/
def onerror (s : AppState) (err : ChannelError) : AppState :=
  let s0 := { s with logs := s.logs ++ ["Session Error: " ++ err.message] }
  if err.isErrorInstance then
    if jsIncludes err.message "Invalid argument" then
      { s0 with errorMsg := some "Configuration invalide (vérifiez les paramètres audio)." }
    else if jsIncludes err.message "Internal error" then
      { s0 with logs := s0.logs ++
          ["Gemini Internal Warning (retrying usually fixes this): " ++ err.message] }
    else
      { s0 with errorMsg := some "Erreur de connexion avec l\x27IA." }
  else s0

/-- The `onclose` callback: the sole place the callbacks mark the session
as disconnected. -/
def onclose (s : AppState) : AppState :=
  { s with isConnected := false }

/-- Process a list of inbound channel messages in arrival order, each with
the clock values at its delivery. -/
def processMessages (cfg : Config) : AppState → List (Env × ServerMsg) → AppState
  | s, [] => s
  | s, em :: rest => processMessages cfg (onmessage cfg em.1 s em.2) rest

/-- The events that drive the session state between connect and
disconnect: an inbound channel message, a source node's `'ended'`
callback, a channel error, and channel closure. -/
inductive AppEvent where
  | channelMessage (env : Env) (m : ServerMsg)
  | bufferEnded (i : Nat)
  | channelError (err : ChannelError)
  | channelClosed
deriving DecidableEq, Repr

/-- Whether an event is an interruption signal (a message with
`serverContent.interrupted` set). -/
def isInterruptEvent : AppEvent → Bool
  | AppEvent.channelMessage _ m => m.interrupted
  | _ => false

/-- One event's effect on the session state. -/
def step (cfg : Config) (s : AppState) : AppEvent → AppState
  | AppEvent.channelMessage env m => onmessage cfg env s m
  | AppEvent.bufferEnded i => { s with sched := endBuffer i s.sched }
  | AppEvent.channelError err => onerror s err
  | AppEvent.channelClosed => onclose s

/-- Run a sequence of events in order. -/
def runEvents (cfg : Config) : AppState → List AppEvent → AppState
  | s, [] => s
  | s, e :: rest => runEvents cfg (step cfg s e) rest

/-! ## Concrete example inputs used by witnesses and counterexamples -/

/-- A settings snapshot: automatic target language, browser TTS off. -/
def cfgNoTTS : Config := { targetLanguage := "Auto", useBrowserTTS := false }

/-- A settings snapshot: automatic target language, browser TTS on. -/
def cfgTTS : Config := { targetLanguage := "Auto", useBrowserTTS := true }

/-- Clocks at the origin. -/
def env0 : Env := { deviceNow := 0, wallClock := 0 }

/-- A message carrying only the partial input text `t`. -/
def msgInputText (t : String) : ServerMsg :=
  { inputTranscription := some { text := some t, languageCode := none } }

/-- A message carrying only an input language tag. -/
def msgTag (c : String) : ServerMsg :=
  { inputTranscription := some { text := none, languageCode := some c } }

/-- A message carrying only the partial output text `t`. -/
def msgOutputText (t : String) : ServerMsg :=
  { outputTranscription := some { text := some t } }

/-- A bare turn-complete message. -/
def msgTC : ServerMsg := { turnComplete := true }

/-- A bare interruption message. -/
def msgInt : ServerMsg := { interrupted := true }

/-- A configuration channel error. -/
def errInvalid : ChannelError := { isErrorInstance := true, message := "Invalid argument: oops" }

/-- A message whose audio payload has an odd byte length (undecodable)
and which also signals an interruption. -/
def msgBadAudio : ServerMsg := { audioData := some [0, 1, 2], interrupted := true }

/-- A message carries no non-host (non-`fr`) language tag: its input
transcription either has no truthy language code, or one the source
classifies as French. -/
def onlyHostTags (m : ServerMsg) : Bool :=
  match m.inputTranscription with
  | none => true
  | some itc =>
    match itc.languageCode with
    | none => true
    | some code => code = "" || jsStartsWith (jsToLower code) "fr"

/-- The session state after the partial-input events `"Bon"` then `"jour"`. -/
def sBonjour : AppState :=
  handleTranscription env0 cfgTTS
    (handleTranscription env0 cfgTTS initApp (msgInputText "Bon")) (msgInputText "jour")

/-- A turn with host-language (French) input detected and model text
accumulated. -/
def sHostTurn : AppState :=
  handleTranscription env0 cfgTTS
    (handleTranscription env0 cfgTTS initApp (msgTag "fr-FR")) (msgOutputText "Hello")

/-- A turn with client (Spanish) input detected and model text
accumulated. -/
def sClientTurn : AppState :=
  handleTranscription env0 cfgTTS
    (handleTranscription env0 cfgTTS initApp (msgTag "es-ES")) (msgOutputText "Bonjour")

/-- A turn with model text accumulated but no input language tag ever
observed. -/
def sNoLangTurn : AppState :=
  handleTranscription env0 cfgTTS initApp (msgOutputText "Bonjour")

/-! ## Scheduler lemmas -/

theorem enqueue_eq (now d : ℚ) (sc : SchedState) :
    enqueue now d sc =
      { sc with
        nextStartTime := max sc.nextStartTime now + d,
        nextId := sc.nextId + 1,
        sources := { id := sc.nextId, start := max sc.nextStartTime now, duration := d }
          :: sc.sources,
        started := sc.started ++
          [{ id := sc.nextId, start := max sc.nextStartTime now, duration := d }] } := rfl

/-- Invariant carried along a run of enqueues: every scheduled buffer has a
nonnegative duration, ends no later than the cursor, and the scheduled
buffers are pairwise non-overlapping in scheduling order. -/
theorem runEnqueues_inv (l : List (ℚ × ℚ)) :
    ∀ sc : SchedState,
    (∀ p ∈ l, 0 ≤ p.2) →
    (∀ b ∈ sc.started, 0 ≤ b.duration) →
    (∀ b ∈ sc.started, b.start + b.duration ≤ sc.nextStartTime) →
    List.Pairwise (fun a b => a.start + a.duration ≤ b.start) sc.started →
    (∀ b ∈ (runEnqueues sc l).started, 0 ≤ b.duration) ∧
    (∀ b ∈ (runEnqueues sc l).started,
      b.start + b.duration ≤ (runEnqueues sc l).nextStartTime) ∧
    List.Pairwise (fun a b => a.start + a.duration ≤ b.start) (runEnqueues sc l).started := by
  induction l with
  | nil => exact fun sc _ h1 h2 h3 => ⟨h1, h2, h3⟩
  | cons p rest ih =>
    intro sc hl h1 h2 h3
    have hp : 0 ≤ p.2 := hl p (List.mem_cons_self _ _)
    have hcl : sc.nextStartTime ≤ max sc.nextStartTime p.1 := le_max_left _ _
    show _ ∧ _ ∧ _
    simp only [runEnqueues]
    apply ih
    · exact fun q hq => hl q (List.mem_cons_of_mem _ hq)
    · intro b hb
      rw [enqueue_eq] at hb
      rcases List.mem_append.1 hb with h | h
      · exact h1 b h
      · rcases List.mem_singleton.1 h with rfl
        exact hp
    · intro b hb
      rw [enqueue_eq] at hb
      rw [enqueue_eq]
      rcases List.mem_append.1 hb with h | h
      · calc b.start + b.duration ≤ sc.nextStartTime := h2 b h
          _ ≤ max sc.nextStartTime p.1 := hcl
          _ ≤ max sc.nextStartTime p.1 + p.2 := le_add_of_nonneg_right hp
      · rcases List.mem_singleton.1 h with rfl
        simp
    · rw [enqueue_eq]
      refine List.pairwise_append.2 ⟨h3, List.pairwise_singleton _ _, ?_⟩
      intro a ha b hb
      rcases List.mem_singleton.1 hb with rfl
      calc a.start + a.duration ≤ sc.nextStartTime := h2 a ha
        _ ≤ max sc.nextStartTime p.1 := hcl

/-- Under the on-time arrival discipline the enqueues extend the scheduled
list into an exact back-to-back chain. -/
theorem runEnqueues_chain (l : List (ℚ × ℚ)) :
    ∀ sc : SchedState,
    arrivalsOnTime sc.nextStartTime l →
    (∀ b, sc.started.getLast? = some b → b.start + b.duration = sc.nextStartTime) →
    List.Chain' (fun a b => b.start = a.start + a.duration) sc.started →
    List.Chain' (fun a b => b.start = a.start + a.duration) (runEnqueues sc l).started := by
  induction l with
  | nil => exact fun sc _ _ h => h
  | cons p rest ih =>
    intro sc hot hlast hchain
    rcases hot with ⟨hle, hot⟩
    have hmax : max sc.nextStartTime p.1 = sc.nextStartTime := max_eq_left hle
    show List.Chain' _ (runEnqueues (enqueue p.1 p.2 sc) _).started
    apply ih
    · rw [enqueue_eq]
      dsimp only
      exact hot
    · intro b hb
      rw [enqueue_eq] at hb
      dsimp only at hb
      rw [List.getLast?_concat] at hb
      rcases Option.some_injective _ hb with rfl
      rfl
    · rw [enqueue_eq]
      dsimp only
      rw [List.chain'_append]
      refine ⟨hchain, List.chain'_singleton _, ?_⟩
      intro a ha b hb
      rcases List.mem_singleton.1 (by simpa using hb) with rfl
      dsimp only
      rw [hmax]
      exact (hlast a ha).symm

/-! ## Preservation lemmas for the message handlers -/

theorem applyInputTrans_sched (s : AppState) (m : ServerMsg) :
    (applyInputTrans s m).sched = s.sched := by
  unfold applyInputTrans
  repeat' split <;> try rfl

theorem applyOutputTrans_sched (s : AppState) (m : ServerMsg) :
    (applyOutputTrans s m).sched = s.sched := by
  unfold applyOutputTrans
  repeat' split <;> try rfl

theorem applyTurnComplete_sched (env : Env) (cfg : Config) (s : AppState) (m : ServerMsg) :
    (applyTurnComplete env cfg s m).sched = s.sched := by
  unfold applyTurnComplete speakText
  dsimp only
  repeat' split <;> try rfl

theorem handleTranscription_sched (env : Env) (cfg : Config) (s : AppState) (m : ServerMsg) :
    (handleTranscription env cfg s m).sched = s.sched := by
  unfold handleTranscription
  rw [applyTurnComplete_sched, applyOutputTrans_sched, applyInputTrans_sched]

theorem applyInputTrans_isConnected (s : AppState) (m : ServerMsg) :
    (applyInputTrans s m).isConnected = s.isConnected := by
  unfold applyInputTrans
  repeat' split <;> try rfl

theorem applyOutputTrans_isConnected (s : AppState) (m : ServerMsg) :
    (applyOutputTrans s m).isConnected = s.isConnected := by
  unfold applyOutputTrans
  repeat' split <;> try rfl

theorem applyTurnComplete_isConnected (env : Env) (cfg : Config) (s : AppState) (m : ServerMsg) :
    (applyTurnComplete env cfg s m).isConnected = s.isConnected := by
  unfold applyTurnComplete speakText
  dsimp only
  repeat' split <;> try rfl

theorem handleTranscription_isConnected (env : Env) (cfg : Config) (s : AppState) (m : ServerMsg) :
    (handleTranscription env cfg s m).isConnected = s.isConnected := by
  unfold handleTranscription
  rw [applyTurnComplete_isConnected, applyOutputTrans_isConnected, applyInputTrans_isConnected]

theorem onmessage_isConnected (cfg : Config) (env : Env) (s : AppState) (m : ServerMsg) :
    (onmessage cfg env s m).isConnected = s.isConnected := by
  unfold onmessage applyInterrupted applyAudio
  dsimp only
  repeat' split
  all_goals (first
    | rfl
    | exact handleTranscription_isConnected env cfg s m)

theorem applyAudio_sources_mono (cfg : Config) (env : Env) (s : AppState) (m : ServerMsg) :
    ∀ b ∈ s.sched.sources, b ∈ (applyAudio cfg env s m).sched.sources := by
  intro b hb
  unfold applyAudio
  dsimp only
  repeat' split
  all_goals (first | exact hb | exact List.mem_cons_of_mem _ hb)

theorem applyOutputTrans_lastClientLanguage (s : AppState) (m : ServerMsg) :
    (applyOutputTrans s m).lastClientLanguage = s.lastClientLanguage := by
  unfold applyOutputTrans
  repeat' split <;> try rfl

theorem applyTurnComplete_lastClientLanguage (env : Env) (cfg : Config) (s : AppState)
    (m : ServerMsg) :
    (applyTurnComplete env cfg s m).lastClientLanguage = s.lastClientLanguage := by
  unfold applyTurnComplete speakText
  dsimp only
  repeat' split <;> try rfl

theorem applyAudio_lastClientLanguage (cfg : Config) (env : Env) (s : AppState)
    (m : ServerMsg) :
    (applyAudio cfg env s m).lastClientLanguage = s.lastClientLanguage := by
  unfold applyAudio
  dsimp only
  repeat' split <;> try rfl

theorem applyInterrupted_lastClientLanguage (cfg : Config) (s : AppState) (m : ServerMsg) :
    (applyInterrupted cfg s m).lastClientLanguage = s.lastClientLanguage := by
  unfold applyInterrupted
  repeat' split <;> try rfl

theorem applyInputTrans_speakRequests (s : AppState) (m : ServerMsg) :
    (applyInputTrans s m).speakRequests = s.speakRequests := by
  unfold applyInputTrans
  repeat' split <;> try rfl

theorem applyOutputTrans_speakRequests (s : AppState) (m : ServerMsg) :
    (applyOutputTrans s m).speakRequests = s.speakRequests := by
  unfold applyOutputTrans
  repeat' split <;> try rfl

theorem applyAudio_speakRequests (cfg : Config) (env : Env) (s : AppState) (m : ServerMsg) :
    (applyAudio cfg env s m).speakRequests = s.speakRequests := by
  unfold applyAudio
  dsimp only
  repeat' split <;> try rfl

theorem applyInterrupted_speakRequests (cfg : Config) (s : AppState) (m : ServerMsg) :
    (applyInterrupted cfg s m).speakRequests = s.speakRequests := by
  unfold applyInterrupted
  repeat' split <;> try rfl

/-- Effect of a message whose input transcription carries the (truthy)
language tag `code` on `lastClientLanguageRef`. -/
theorem applyInputTrans_lang (s : AppState) (m : ServerMsg) (itc : InputTranscription)
    (code : String) (h1 : m.inputTranscription = some itc)
    (h2 : itc.languageCode = some code) (h3 : code ≠ "") :
    (applyInputTrans s m).lastClientLanguage =
      if jsStartsWith (jsToLower code) "fr" = true then s.lastClientLanguage else code := by
  cases ht : itc.text with
  | none =>
    by_cases hfr : jsStartsWith (jsToLower code) "fr" = true <;>
      simp [applyInputTrans, h1, h2, ht, h3, hfr]
  | some t =>
    by_cases htt : t = "" <;>
      by_cases hfr : jsStartsWith (jsToLower code) "fr" = true <;>
        simp [applyInputTrans, h1, h2, ht, h3, htt, hfr]

theorem handleTranscription_lang (env : Env) (cfg : Config) (s : AppState) (m : ServerMsg)
    (itc : InputTranscription) (code : String) (h1 : m.inputTranscription = some itc)
    (h2 : itc.languageCode = some code) (h3 : code ≠ "") :
    (handleTranscription env cfg s m).lastClientLanguage =
      if jsStartsWith (jsToLower code) "fr" = true then s.lastClientLanguage else code := by
  unfold handleTranscription
  rw [applyTurnComplete_lastClientLanguage, applyOutputTrans_lastClientLanguage,
      applyInputTrans_lang s m itc code h1 h2 h3]

/-! ## C1: gap-free scheduling -/

/-- C1 (amended): with the enqueue rule `t0 = max(cursor, deviceNow)`,
`cursor = t0 + duration`, any sequence of enqueued buffers with
nonnegative durations and no interruption is scheduled without overlap
(each buffer ends no later than the next one starts); buffer k's start
time equals buffer k-1's start time plus d(k-1) whenever every buffer is
enqueued while the device clock has not yet passed the cursor — the
equality of the original claim can fail when the device clock overtakes
the cursor between enqueues. -/
theorem scheduler_gap_free (l : List (ℚ × ℚ)) (hd : ∀ p ∈ l, 0 ≤ p.2) :
    List.Pairwise (fun a b => a.start + a.duration ≤ b.start)
      (runEnqueues initSched l).started ∧
    (arrivalsOnTime 0 l →
      List.Chain' (fun a b => b.start = a.start + a.duration)
        (runEnqueues initSched l).started) := by
  constructor
  · exact (runEnqueues_inv l initSched hd (by simp [initSched]) (by simp [initSched])
      (by simp [initSched])).2.2
  · intro hot
    exact runEnqueues_chain l initSched hot (by simp [initSched]) (by simp [initSched])

/-- C1 witness: two on-time buffers of durations 1 and 2 are scheduled
without overlap and back-to-back. -/
theorem scheduler_gap_free_check :
    List.Pairwise (fun a b => a.start + a.duration ≤ b.start)
      (runEnqueues initSched [((0 : ℚ), (1 : ℚ)), ((1 : ℚ), (2 : ℚ))]).started ∧
    List.Chain' (fun a b => b.start = a.start + a.duration)
      (runEnqueues initSched [((0 : ℚ), (1 : ℚ)), ((1 : ℚ), (2 : ℚ))]).started :=
  ⟨(scheduler_gap_free [((0 : ℚ), (1 : ℚ)), ((1 : ℚ), (2 : ℚ))] (by decide)).1,
   (scheduler_gap_free [((0 : ℚ), (1 : ℚ)), ((1 : ℚ), (2 : ℚ))] (by decide)).2
     (by simp [arrivalsOnTime])⟩

/-- C1 counterexample to the claim as stated: a 1-second buffer enqueued at
device time 0 followed by a buffer enqueued at device time 5 is scheduled
at start time 5, not at 0 + 1 — so with no interruption the second
buffer's start time differs from the first's start time plus the first's
duration. -/
theorem scheduler_gap_free_strict_fails :
    (runEnqueues initSched [((0 : ℚ), (1 : ℚ)), ((5 : ℚ), (1 : ℚ))]).started.map
        SchedBuffer.start = [0, 5] ∧
    (runEnqueues initSched [((0 : ℚ), (1 : ℚ)), ((5 : ℚ), (1 : ℚ))]).started.map
        SchedBuffer.duration = [1, 1] ∧
    ¬ ((5 : ℚ) = 0 + 1) := by
  refine ⟨?_, ?_, by norm_num⟩ <;>
    simp [runEnqueues, enqueue_eq, initSched]

/-! ## C3: interrupt flush -/

/-- C3: after the `interrupted` handler runs, every buffer that was active
before the message is among the stopped ones, the active set is empty and
the cursor is 0; hence the next enqueue at any device time `now ≥ 0`
schedules its buffer to start exactly at `now`. -/
theorem interrupt_flush (cfg : Config) (env : Env) (s : AppState) (m : ServerMsg)
    (hm : m.interrupted = true) :
    (onmessage cfg env s m).sched.sources = [] ∧
    (onmessage cfg env s m).sched.nextStartTime = 0 ∧
    (∀ b ∈ s.sched.sources, b ∈ (onmessage cfg env s m).sched.stopped) ∧
    (∀ now d : ℚ, 0 ≤ now →
      (enqueue now d (onmessage cfg env s m).sched).started =
        (onmessage cfg env s m).sched.started ++
          [{ id := (onmessage cfg env s m).sched.nextId, start := now, duration := d }]) := by
  have hs : onmessage cfg env s m =
      { applyAudio cfg env (handleTranscription env cfg s m) m with
        sched := flushAndStop (applyAudio cfg env (handleTranscription env cfg s m) m).sched,
        speechCancels :=
          if cfg.useBrowserTTS then
            (applyAudio cfg env (handleTranscription env cfg s m) m).speechCancels + 1
          else (applyAudio cfg env (handleTranscription env cfg s m) m).speechCancels } := by
    unfold onmessage applyInterrupted
    rw [hm]
    simp
  refine ⟨by rw [hs]; rfl, by rw [hs]; rfl, ?_, ?_⟩
  · intro b hb
    rw [hs]
    dsimp only [flushAndStop]
    refine List.mem_append_right _ ?_
    apply applyAudio_sources_mono
    rw [handleTranscription_sched]
    exact hb
  · intro now d hnow
    rw [hs]
    dsimp only [enqueue, startBuffer, clampCursor, flushAndStop]
    rw [max_eq_right hnow]

/-- C3 witness: an interruption message processed from the initial state,
followed by an enqueue at device time 7. -/
theorem interrupt_flush_check :
    msgInt.interrupted = true ∧ (0 : ℚ) ≤ 7 ∧
    (onmessage cfgNoTTS env0 initApp msgInt).sched.sources = [] ∧
    (onmessage cfgNoTTS env0 initApp msgInt).sched.nextStartTime = 0 ∧
    (enqueue 7 2 (onmessage cfgNoTTS env0 initApp msgInt).sched).started =
      (onmessage cfgNoTTS env0 initApp msgInt).sched.started ++
        [{ id := (onmessage cfgNoTTS env0 initApp msgInt).sched.nextId,
           start := 7, duration := 2 }] :=
  ⟨rfl, by decide,
   (interrupt_flush cfgNoTTS env0 initApp msgInt rfl).1,
   (interrupt_flush cfgNoTTS env0 initApp msgInt rfl).2.1,
   (interrupt_flush cfgNoTTS env0 initApp msgInt rfl).2.2.2 7 2 (by decide)⟩

/-! ## C2: turn-complete finalization -/

/-- C2 (amended): on a turn-complete event, each of the two accumulation
buffers whose trimmed content is non-empty yields exactly one new
`TranscriptItem` (the user item first, then the model item); every buffer
whose trimmed content was non-empty is cleared by the event, while a
buffer whose content trims to empty (for instance pure whitespace) is left
unchanged rather than cleared; a turn-complete with both buffers trimming
to empty emits no items. -/
theorem turn_finalization (env : Env) (cfg : Config) (s : AppState) (m : ServerMsg)
    (hm : m.turnComplete = true)
    (hin : m.inputTranscription = none) (hout : m.outputTranscription = none) :
    (handleTranscription env cfg s m).transcripts =
      s.transcripts ++
        (if jsTrim s.currentInputTrans = "" then [] else
          [{ id := toString env.wallClock ++ "-user", source := Source.user,
             text := jsTrim s.currentInputTrans, language := s.currentInputLanguage,
             isFinal := true, timestamp := env.wallClock }]) ++
        (if jsTrim s.currentOutputTrans = "" then [] else
          [{ id := toString env.wallClock ++ "-model", source := Source.model,
             text := jsTrim s.currentOutputTrans, language := none,
             isFinal := true, timestamp := env.wallClock }]) ∧
    (jsTrim s.currentInputTrans ≠ "" → (handleTranscription env cfg s m).currentInputTrans = "") ∧
    (jsTrim s.currentOutputTrans ≠ "" → (handleTranscription env cfg s m).currentOutputTrans = "") ∧
    (jsTrim s.currentInputTrans = "" →
      (handleTranscription env cfg s m).currentInputTrans = s.currentInputTrans) ∧
    (jsTrim s.currentOutputTrans = "" →
      (handleTranscription env cfg s m).currentOutputTrans = s.currentOutputTrans) := by
  have hh : handleTranscription env cfg s m = applyTurnComplete env cfg s m := by
    unfold handleTranscription
    rw [show applyInputTrans s m = s by unfold applyInputTrans; rw [hin],
        show applyOutputTrans s m = s by unfold applyOutputTrans; rw [hout]]
  rw [hh]
  unfold applyTurnComplete
  rw [hm]
  by_cases hu : jsTrim s.currentInputTrans = "" <;>
    by_cases ho : jsTrim s.currentOutputTrans = "" <;>
      cases hB : cfg.useBrowserTTS <;>
        simp [hu, ho, hB, speakText]

/-- C2 witness: partial inputs `"Bon"` then `"jour"` followed by a bare
turn-complete yield exactly one user item and clear the user buffer. -/
theorem turn_finalization_check :
    msgTC.turnComplete = true ∧ msgTC.inputTranscription = none ∧
    msgTC.outputTranscription = none ∧
    (handleTranscription env0 cfgTTS sBonjour msgTC).transcripts =
      sBonjour.transcripts ++
        (if jsTrim sBonjour.currentInputTrans = "" then [] else
          [{ id := toString env0.wallClock ++ "-user", source := Source.user,
             text := jsTrim sBonjour.currentInputTrans,
             language := sBonjour.currentInputLanguage,
             isFinal := true, timestamp := env0.wallClock }]) ++
        (if jsTrim sBonjour.currentOutputTrans = "" then [] else
          [{ id := toString env0.wallClock ++ "-model", source := Source.model,
             text := jsTrim sBonjour.currentOutputTrans, language := none,
             isFinal := true, timestamp := env0.wallClock }]) ∧
    (handleTranscription env0 cfgTTS sBonjour msgTC).currentInputTrans = "" :=
  ⟨rfl, rfl, rfl,
   (turn_finalization env0 cfgTTS sBonjour msgTC rfl rfl rfl).1,
   (turn_finalization env0 cfgTTS sBonjour msgTC rfl rfl rfl).2.1 (by decide)⟩

/-- C2 counterexample to the claim as stated: a partial-input event whose
text is a single space followed by a turn-complete emits no item, and the
user accumulation buffer afterwards still holds `" "` — it is not reset to
empty, contradicting "after the event both accumulation buffers are
empty". -/
theorem turn_finalization_whitespace_fails :
    (handleTranscription env0 cfgTTS
      (handleTranscription env0 cfgTTS initApp (msgInputText " ")) msgTC).currentInputTrans
      = " " ∧
    (" " : String) ≠ "" ∧
    (handleTranscription env0 cfgTTS
      (handleTranscription env0 cfgTTS initApp (msgInputText " ")) msgTC).transcripts = [] := by
  refine ⟨by decide, by decide, by decide⟩

/-- With no transcription parts in the message, `handleTranscription`
reduces to its turn-complete section. -/
theorem handleTranscription_noParts (env : Env) (cfg : Config) (s : AppState)
    (m : ServerMsg) (hin : m.inputTranscription = none)
    (hout : m.outputTranscription = none) :
    handleTranscription env cfg s m = applyTurnComplete env cfg s m := by
  unfold handleTranscription
  rw [show applyInputTrans s m = s by unfold applyInputTrans; rw [hin],
      show applyOutputTrans s m = s by unfold applyOutputTrans; rw [hout]]

/-- `speakText` with `isFrenchOutput` chooses the host locale. -/
theorem resolveSpeakLang_french (cfg : Config) (l : String) :
    resolveSpeakLang cfg l true = "fr-FR" := rfl

/-- The speech request emitted by the turn-complete section when browser
TTS is on and the model buffer trims non-empty. -/
theorem applyTurnComplete_speakRequests (env : Env) (cfg : Config) (s : AppState)
    (m : ServerMsg) (hm : m.turnComplete = true) (htts : cfg.useBrowserTTS = true)
    (hne : jsTrim s.currentOutputTrans ≠ "") :
    (applyTurnComplete env cfg s m).speakRequests =
      s.speakRequests ++
        [{ text := jsTrim s.currentOutputTrans,
           lang := resolveSpeakLang cfg s.lastClientLanguage
             (!jsStartsWith (jsToLower (s.currentInputLanguage.getD "")) "fr"),
           isFrenchOutput :=
             !jsStartsWith (jsToLower (s.currentInputLanguage.getD "")) "fr" }] := by
  unfold applyTurnComplete
  rw [hm]
  by_cases hu : jsTrim s.currentInputTrans = "" <;>
    simp [hu, hne, htts, speakText]

/-! ## C4: LastClientLanguage update rule -/

/-- C4 (amended): `lastClientLanguageRef` is overwritten by every observed
truthy input language tag whose lowercased form does not start with `fr`,
and is never overwritten by a tag that does start with `fr` (the source
tests `startsWith('fr')` on the whole lowercased tag, not equality of the
base code, so a tag such as `frr-DE` with base code `frr` also never
overwrites it); in particular, for the tag sequence `es-ES`, `fr-FR`,
`es-MX` its final value is `es-MX`. -/
theorem last_client_language_update (env : Env) (cfg : Config) (s : AppState)
    (m : ServerMsg) (itc : InputTranscription) (code : String)
    (h1 : m.inputTranscription = some itc) (h2 : itc.languageCode = some code)
    (h3 : code ≠ "") :
    ((jsStartsWith (jsToLower code) "fr" = false →
        (handleTranscription env cfg s m).lastClientLanguage = code) ∧
     (jsStartsWith (jsToLower code) "fr" = true →
        (handleTranscription env cfg s m).lastClientLanguage = s.lastClientLanguage)) ∧
    (processMessages cfgNoTTS initApp
        [(env0, msgTag "es-ES"), (env0, msgTag "fr-FR"),
         (env0, msgTag "es-MX")]).lastClientLanguage = "es-MX" := by
  refine ⟨⟨?_, ?_⟩, by decide⟩ <;>
    intro hfr <;>
      rw [handleTranscription_lang env cfg s m itc code h1 h2 h3] <;>
        simp [hfr]

/-- C4 witness: a single `es-ES` tag observed from the initial state
overwrites the stored client language, and the three-tag sequence ends at
`es-MX`. -/
theorem last_client_language_update_check :
    jsStartsWith (jsToLower "es-ES") "fr" = false ∧
    (handleTranscription env0 cfgNoTTS initApp (msgTag "es-ES")).lastClientLanguage =
      "es-ES" ∧
    (processMessages cfgNoTTS initApp
        [(env0, msgTag "es-ES"), (env0, msgTag "fr-FR"),
         (env0, msgTag "es-MX")]).lastClientLanguage = "es-MX" :=
  ⟨by decide,
   (last_client_language_update env0 cfgNoTTS initApp (msgTag "es-ES")
     { text := none, languageCode := some "es-ES" } "es-ES" rfl rfl
     (by decide)).1.1 (by decide),
   (last_client_language_update env0 cfgNoTTS initApp (msgTag "es-ES")
     { text := none, languageCode := some "es-ES" } "es-ES" rfl rfl (by decide)).2⟩

/-- C4 counterexample to the claim as stated: the tag `frr-DE` has base
code `frr`, which is not the host language `fr`, yet observing it leaves
`lastClientLanguageRef` at its previous value `en-US` instead of
overwriting it with `frr-DE` — the source's `startsWith('fr')` test treats
it as a host tag. -/
theorem last_client_language_base_code_fails :
    jsToLower (baseOf "frr-DE") ≠ "fr" ∧
    (handleTranscription env0 cfgNoTTS initApp (msgTag "frr-DE")).lastClientLanguage =
      "en-US" ∧
    ("en-US" : String) ≠ "frr-DE" := by
  refine ⟨by decide, by decide, by decide⟩

/-! ## C5: fallback-speech directionality -/

/-- C5: for a turn finalized with the speech-synthesis fallback active and
a non-empty (trimmed) model text, a detected input language the source
classifies as French (lowercased tag starting with `fr`) makes the speak
request use the client/target-language resolution, and a detected input
language not so classified makes the speak request use the host locale
`fr-FR`. -/
theorem speak_directionality (env : Env) (cfg : Config) (s : AppState) (m : ServerMsg)
    (hm : m.turnComplete = true) (hin : m.inputTranscription = none)
    (hout : m.outputTranscription = none) (htts : cfg.useBrowserTTS = true)
    (hne : jsTrim s.currentOutputTrans ≠ "") :
    (jsStartsWith (jsToLower (s.currentInputLanguage.getD "")) "fr" = true →
      (handleTranscription env cfg s m).speakRequests =
        s.speakRequests ++
          [{ text := jsTrim s.currentOutputTrans,
             lang := resolveSpeakLang cfg s.lastClientLanguage false,
             isFrenchOutput := false }]) ∧
    (jsStartsWith (jsToLower (s.currentInputLanguage.getD "")) "fr" = false →
      (handleTranscription env cfg s m).speakRequests =
        s.speakRequests ++
          [{ text := jsTrim s.currentOutputTrans, lang := "fr-FR",
             isFrenchOutput := true }]) := by
  rw [handleTranscription_noParts env cfg s m hin hout]
  constructor <;> intro hfr <;>
    rw [applyTurnComplete_speakRequests env cfg s m hm htts hne] <;>
      simp [hfr, resolveSpeakLang_french]

/-- C5 witness: a host-input (French) turn finalized with the fallback
active issues a client/target-language speak request. -/
theorem speak_directionality_check :
    msgTC.turnComplete = true ∧ cfgTTS.useBrowserTTS = true ∧
    jsStartsWith (jsToLower (sHostTurn.currentInputLanguage.getD "")) "fr" = true ∧
    (handleTranscription env0 cfgTTS sHostTurn msgTC).speakRequests =
      sHostTurn.speakRequests ++
        [{ text := jsTrim sHostTurn.currentOutputTrans,
           lang := resolveSpeakLang cfgTTS sHostTurn.lastClientLanguage false,
           isFrenchOutput := false }] :=
  ⟨rfl, rfl, by decide,
   (speak_directionality env0 cfgTTS sHostTurn msgTC rfl rfl rfl rfl
     (by decide)).1 (by decide)⟩

/-! ## C9: absent input language is treated as non-host -/

/-- C9: when no input language tag was observed before turn-complete, the
turn is treated as non-host input, so the fallback speak request for a
non-empty model text is issued with the host locale `fr-FR`. -/
theorem absent_language_speaks_host (env : Env) (cfg : Config) (s : AppState)
    (m : ServerMsg) (hm : m.turnComplete = true) (hin : m.inputTranscription = none)
    (hout : m.outputTranscription = none) (htts : cfg.useBrowserTTS = true)
    (hne : jsTrim s.currentOutputTrans ≠ "")
    (hlang : s.currentInputLanguage = none) :
    (handleTranscription env cfg s m).speakRequests =
      s.speakRequests ++
        [{ text := jsTrim s.currentOutputTrans, lang := "fr-FR",
           isFrenchOutput := true }] := by
  rw [handleTranscription_noParts env cfg s m hin hout,
      applyTurnComplete_speakRequests env cfg s m hm htts hne]
  have hf : jsStartsWith (jsToLower "") "fr" = false := by decide
  simp [hlang, hf, resolveSpeakLang_french]

/-! ## C7: channel-error classification -/

/-- C7 (amended): an `Error` whose message contains `Invalid argument`
surfaces the distinct configuration message; otherwise one containing
`Internal error` is only logged (the user-visible error state is
untouched); any other `Error` surfaces the generic connection-failure
message.  In every case the handler itself leaves the connection state
unchanged — a configuration error is not made terminal by the handler
(the session ends only if the channel itself closes). -/
theorem channel_error_classification (s : AppState) (err : ChannelError)
    (hi : err.isErrorInstance = true) :
    (jsIncludes err.message "Invalid argument" = true →
      (onerror s err).errorMsg =
        some "Configuration invalide (vérifiez les paramètres audio).") ∧
    (jsIncludes err.message "Invalid argument" = false →
      jsIncludes err.message "Internal error" = true →
      (onerror s err).errorMsg = s.errorMsg ∧
      (onerror s err).logs = s.logs ++
        ["Session Error: " ++ err.message,
         "Gemini Internal Warning (retrying usually fixes this): " ++ err.message]) ∧
    (jsIncludes err.message "Invalid argument" = false →
      jsIncludes err.message "Internal error" = false →
      (onerror s err).errorMsg = some "Erreur de connexion avec l'IA.") ∧
    (onerror s err).isConnected = s.isConnected := by
  unfold onerror
  by_cases hA : jsIncludes err.message "Invalid argument" = true <;>
    by_cases hB : jsIncludes err.message "Internal error" = true <;>
      simp_all

/-- C7 witness: a configuration error delivered to the handler surfaces
the distinct configuration message and leaves the connection state
unchanged. -/
theorem channel_error_classification_check :
    errInvalid.isErrorInstance = true ∧
    jsIncludes errInvalid.message "Invalid argument" = true ∧
    (onerror initApp errInvalid).errorMsg =
      some "Configuration invalide (vérifiez les paramètres audio)." ∧
    (onerror initApp errInvalid).isConnected = initApp.isConnected :=
  ⟨rfl, by decide,
   (channel_error_classification initApp errInvalid rfl).1 (by decide),
   (channel_error_classification initApp errInvalid rfl).2.2.2⟩

/-- C7 counterexample to the claim as stated: a configuration error
(`Invalid argument`) surfaces its distinct message but is not terminal for
the session — the handler leaves the session connected. -/
theorem config_error_not_terminal :
    (onerror initApp { isErrorInstance := true, message := "Invalid argument" }).errorMsg =
      some "Configuration invalide (vérifiez les paramètres audio)." ∧
    (onerror initApp
        { isErrorInstance := true, message := "Invalid argument" }).isConnected = true ∧
    initApp.isConnected = true := by
  refine ⟨by decide, by decide, by decide⟩

/-! ## C8: cursor monotonicity -/

/-- A successfully decoded buffer has a nonnegative duration. -/
theorem decodeAudioData_nonneg (bytes : List Nat) (r : Nat) (d : ℚ)
    (h : decodeAudioData bytes r = Except.ok d) : 0 ≤ d := by
  unfold decodeAudioData at h
  split at h
  · rcases h with ⟨⟩
    positivity
  · cases h

theorem onerror_sched (s : AppState) (err : ChannelError) :
    (onerror s err).sched = s.sched := by
  unfold onerror
  repeat' split <;> try rfl

theorem applyAudio_cursor_mono (cfg : Config) (env : Env) (s : AppState) (m : ServerMsg) :
    s.sched.nextStartTime ≤ (applyAudio cfg env s m).sched.nextStartTime := by
  unfold applyAudio
  cases ha : m.audioData with
  | none => exact le_refl _
  | some bytes =>
    dsimp only
    cases hT : cfg.useBrowserTTS with
    | true =>
      rw [if_pos rfl]
    | false =>
      rw [if_neg Bool.false_ne_true]
      cases hd : decodeAudioData bytes 24000 with
      | ok dur =>
        dsimp only [startBuffer, clampCursor]
        calc s.sched.nextStartTime
            ≤ max s.sched.nextStartTime env.deviceNow := le_max_left _ _
          _ ≤ max s.sched.nextStartTime env.deviceNow + dur :=
              le_add_of_nonneg_right (decodeAudioData_nonneg bytes 24000 dur hd)
      | error e => exact le_max_left _ _

/-- An event that is not an interruption never decreases the cursor. -/
theorem step_cursor_mono (cfg : Config) (s : AppState) (e : AppEvent)
    (he : isInterruptEvent e = false) :
    s.sched.nextStartTime ≤ (step cfg s e).sched.nextStartTime := by
  cases e with
  | channelMessage env m =>
    have hm : m.interrupted = false := he
    show s.sched.nextStartTime ≤ (onmessage cfg env s m).sched.nextStartTime
    unfold onmessage applyInterrupted
    rw [hm]
    simp only [Bool.false_eq_true, if_false]
    calc s.sched.nextStartTime
        = (handleTranscription env cfg s m).sched.nextStartTime := by
          rw [handleTranscription_sched]
      _ ≤ _ := applyAudio_cursor_mono cfg env (handleTranscription env cfg s m) m
  | bufferEnded i => exact le_refl _
  | channelError err =>
    show s.sched.nextStartTime ≤ (onerror s err).sched.nextStartTime
    rw [onerror_sched]
  | channelClosed => exact le_refl _

/-- C8: across any sequence of events containing no interruption the
cursor is monotonically non-decreasing, and any single event that strictly
decreases the cursor must be an interruption message — the interrupt flush
is the sole reset point. -/
theorem cursor_monotone (cfg : Config) :
    (∀ (s : AppState) (es : List AppEvent),
      (∀ e ∈ es, isInterruptEvent e = false) →
      s.sched.nextStartTime ≤ (runEvents cfg s es).sched.nextStartTime) ∧
    (∀ (s : AppState) (e : AppEvent),
      (step cfg s e).sched.nextStartTime < s.sched.nextStartTime →
      isInterruptEvent e = true) := by
  constructor
  · intro s es
    induction es generalizing s with
    | nil => exact fun _ => le_refl _
    | cons e rest ih =>
      intro h
      calc s.sched.nextStartTime
          ≤ (step cfg s e).sched.nextStartTime :=
            step_cursor_mono cfg s e (h e (List.mem_cons_self _ _))
        _ ≤ _ := ih (step cfg s e) (fun x hx => h x (List.mem_cons_of_mem _ hx))
  · intro s e hlt
    by_contra h
    exact absurd hlt (not_lt.2 (step_cursor_mono cfg s e (by
      cases hb : isInterruptEvent e
      · rfl
      · exact absurd hb h)))

/-- C8 witness: over two non-interrupting events from the initial state
the cursor does not decrease. -/
theorem cursor_monotone_check :
    isInterruptEvent (AppEvent.bufferEnded 0) = false ∧
    isInterruptEvent AppEvent.channelClosed = false ∧
    initApp.sched.nextStartTime ≤
      (runEvents cfgNoTTS initApp
        [AppEvent.bufferEnded 0, AppEvent.channelClosed]).sched.nextStartTime :=
  ⟨rfl, rfl, (cursor_monotone cfgNoTTS).1 initApp
    [AppEvent.bufferEnded 0, AppEvent.channelClosed] (by decide)⟩

/-- C9 witness: a turn with model text `"Bonjour"` and no observed input
language tag speaks in the host locale. -/
theorem absent_language_speaks_host_check :
    msgTC.turnComplete = true ∧ cfgTTS.useBrowserTTS = true ∧
    sNoLangTurn.currentInputLanguage = none ∧
    (handleTranscription env0 cfgTTS sNoLangTurn msgTC).speakRequests =
      sNoLangTurn.speakRequests ++
        [{ text := jsTrim sNoLangTurn.currentOutputTrans, lang := "fr-FR",
           isFrenchOutput := true }] :=
  ⟨rfl, rfl, by decide,
   absent_language_speaks_host env0 cfgTTS sNoLangTurn msgTC rfl rfl rfl rfl
     (by decide) (by decide)⟩

/-! ## C6: per-message fault isolation -/

theorem applyAudio_transcripts (cfg : Config) (env : Env) (s : AppState) (m : ServerMsg) :
    (applyAudio cfg env s m).transcripts = s.transcripts := by
  unfold applyAudio
  dsimp only
  repeat' split <;> try rfl

theorem applyInterrupted_transcripts (cfg : Config) (s : AppState) (m : ServerMsg) :
    (applyInterrupted cfg s m).transcripts = s.transcripts := by
  unfold applyInterrupted
  repeat' split <;> try rfl

theorem applyInterrupted_started (cfg : Config) (s : AppState) (m : ServerMsg) :
    (applyInterrupted cfg s m).sched.started = s.sched.started := by
  unfold applyInterrupted flushAndStop
  repeat' split <;> try rfl

/-- When the payload fails to decode, the audio section only clamps the
cursor and logs the error. -/
theorem applyAudio_decode_error (cfg : Config) (env : Env) (s : AppState) (m : ServerMsg)
    (bytes : List Nat) (err : String) (ha : m.audioData = some bytes)
    (htts : cfg.useBrowserTTS = false)
    (hd : decodeAudioData bytes 24000 = Except.error err) :
    applyAudio cfg env s m =
      { s with sched := clampCursor env.deviceNow s.sched,
               logs := s.logs ++ ["Audio decoding error: " ++ err] } := by
  unfold applyAudio
  rw [ha]
  dsimp only
  rw [if_neg (by rw [htts]; exact Bool.false_ne_true), hd]

/-- C6: a message whose audio payload fails to decode is handled inside
the callback: the connection state is untouched, no buffer is scheduled,
the transcription effects of the same message are still applied, an
interruption flag in the same message is still honored, and subsequent
messages are processed exactly as if starting from the resulting state. -/
theorem message_fault_isolation (cfg : Config) (env : Env) (s : AppState) (m : ServerMsg)
    (bytes : List Nat) (err : String) (ha : m.audioData = some bytes)
    (htts : cfg.useBrowserTTS = false)
    (hd : decodeAudioData bytes 24000 = Except.error err) :
    (onmessage cfg env s m).isConnected = s.isConnected ∧
    (onmessage cfg env s m).sched.started = s.sched.started ∧
    (onmessage cfg env s m).transcripts = (handleTranscription env cfg s m).transcripts ∧
    (m.interrupted = true → (onmessage cfg env s m).sched.sources = [] ∧
      (onmessage cfg env s m).sched.nextStartTime = 0) ∧
    (∀ ems : List (Env × ServerMsg),
      processMessages cfg s ((env, m) :: ems) =
        processMessages cfg (onmessage cfg env s m) ems) := by
  refine ⟨onmessage_isConnected cfg env s m, ?_, ?_, ?_, fun ems => rfl⟩
  · show (applyInterrupted cfg (applyAudio cfg env (handleTranscription env cfg s m) m)
      m).sched.started = s.sched.started
    rw [applyInterrupted_started,
        applyAudio_decode_error cfg env (handleTranscription env cfg s m) m bytes err ha htts hd]
    show (clampCursor env.deviceNow (handleTranscription env cfg s m).sched).started =
      s.sched.started
    rw [show ∀ sc : SchedState, (clampCursor env.deviceNow sc).started = sc.started
          from fun _ => rfl,
        handleTranscription_sched]
  · show (applyInterrupted cfg (applyAudio cfg env (handleTranscription env cfg s m) m)
      m).transcripts = _
    rw [applyInterrupted_transcripts, applyAudio_transcripts]
  · intro hm
    constructor <;>
    · show _
      unfold onmessage applyInterrupted
      rw [hm, if_pos rfl]
      rfl

/-- C6 witness: a 3-byte (undecodable) audio payload combined with an
interruption flag, processed from the initial state. -/
theorem message_fault_isolation_check :
    msgBadAudio.audioData = some [0, 1, 2] ∧
    cfgNoTTS.useBrowserTTS = false ∧
    decodeAudioData [0, 1, 2] 24000 = Except.error "DecodeError" ∧
    (onmessage cfgNoTTS env0 initApp msgBadAudio).isConnected = initApp.isConnected ∧
    (onmessage cfgNoTTS env0 initApp msgBadAudio).sched.started = initApp.sched.started ∧
    (onmessage cfgNoTTS env0 initApp msgBadAudio).transcripts =
      (handleTranscription env0 cfgNoTTS initApp msgBadAudio).transcripts ∧
    processMessages cfgNoTTS initApp [(env0, msgBadAudio), (env0, msgTC)] =
      processMessages cfgNoTTS (onmessage cfgNoTTS env0 initApp msgBadAudio)
        [(env0, msgTC)] :=
  ⟨rfl, rfl, rfl,
   (message_fault_isolation cfgNoTTS env0 initApp msgBadAudio [0, 1, 2] "DecodeError"
     rfl rfl rfl).1,
   (message_fault_isolation cfgNoTTS env0 initApp msgBadAudio [0, 1, 2] "DecodeError"
     rfl rfl rfl).2.1,
   (message_fault_isolation cfgNoTTS env0 initApp msgBadAudio [0, 1, 2] "DecodeError"
     rfl rfl rfl).2.2.1,
   (message_fault_isolation cfgNoTTS env0 initApp msgBadAudio [0, 1, 2] "DecodeError"
     rfl rfl rfl).2.2.2.2 [(env0, msgTC)]⟩

/-! ## C10: the en-US default of LastClientLanguage -/

theorem applyInputTrans_host (s : AppState) (m : ServerMsg)
    (hhost : onlyHostTags m = true) :
    (applyInputTrans s m).lastClientLanguage = s.lastClientLanguage := by
  unfold onlyHostTags at hhost
  unfold applyInputTrans
  repeat' split <;> try simp_all

theorem handleTranscription_host (env : Env) (cfg : Config) (s : AppState) (m : ServerMsg)
    (hhost : onlyHostTags m = true) :
    (handleTranscription env cfg s m).lastClientLanguage = s.lastClientLanguage := by
  unfold handleTranscription
  rw [applyTurnComplete_lastClientLanguage, applyOutputTrans_lastClientLanguage,
      applyInputTrans_host s m hhost]

/-- In automatic mode the stored `en-US` default resolves to itself. -/
theorem resolveSpeakLang_auto_enUS (cfg : Config) (hAuto : cfg.targetLanguage = "Auto") :
    resolveSpeakLang cfg "en-US" false = "en-US" := by
  have hmap : mapLanguageCodeToLocale "en-US" = some "en-US" := by decide
  simp [resolveSpeakLang, hAuto, hmap]

/-- The turn-complete section either issues no speak request or exactly
one, resolved against the current `lastClientLanguageRef`. -/
theorem applyTurnComplete_speakRequests_cases (env : Env) (cfg : Config) (s : AppState)
    (m : ServerMsg) :
    (applyTurnComplete env cfg s m).speakRequests = s.speakRequests ∨
    ∃ t fo, (applyTurnComplete env cfg s m).speakRequests =
      s.speakRequests ++
        [{ text := t, lang := resolveSpeakLang cfg s.lastClientLanguage fo,
           isFrenchOutput := fo }] := by
  unfold applyTurnComplete speakText
  dsimp only
  repeat' split
  all_goals first
    | (left; rfl)
    | (right; exact ⟨_, _, rfl⟩)

theorem handleTranscription_enUS (env : Env) (cfg : Config) (s : AppState) (m : ServerMsg)
    (hAuto : cfg.targetLanguage = "Auto") (hhost : onlyHostTags m = true)
    (hlast : s.lastClientLanguage = "en-US")
    (hreqs : ∀ r ∈ s.speakRequests, r.isFrenchOutput = false → r.lang = "en-US") :
    (handleTranscription env cfg s m).lastClientLanguage = "en-US" ∧
    (∀ r ∈ (handleTranscription env cfg s m).speakRequests,
      r.isFrenchOutput = false → r.lang = "en-US") := by
  have hs1 : (applyOutputTrans (applyInputTrans s m) m).lastClientLanguage = "en-US" := by
    rw [applyOutputTrans_lastClientLanguage, applyInputTrans_host s m hhost]
    exact hlast
  have hs1req : (applyOutputTrans (applyInputTrans s m) m).speakRequests =
      s.speakRequests := by
    rw [applyOutputTrans_speakRequests, applyInputTrans_speakRequests]
  constructor
  · rw [handleTranscription_host env cfg s m hhost]
    exact hlast
  · intro r hr
    unfold handleTranscription at hr
    rcases applyTurnComplete_speakRequests_cases env cfg
        (applyOutputTrans (applyInputTrans s m) m) m with hcase | ⟨t, fo, hcase⟩
    · rw [hcase, hs1req] at hr
      exact hreqs r hr
    · rw [hcase, hs1req, hs1] at hr
      rcases List.mem_append.1 hr with h | h
      · exact hreqs r h
      · rcases List.mem_singleton.1 h with rfl
        intro hfo
        dsimp only at hfo ⊢
        rw [hfo]
        exact resolveSpeakLang_auto_enUS cfg hAuto

theorem onmessage_enUS (cfg : Config) (env : Env) (s : AppState) (m : ServerMsg)
    (hAuto : cfg.targetLanguage = "Auto") (hhost : onlyHostTags m = true)
    (hlast : s.lastClientLanguage = "en-US")
    (hreqs : ∀ r ∈ s.speakRequests, r.isFrenchOutput = false → r.lang = "en-US") :
    (onmessage cfg env s m).lastClientLanguage = "en-US" ∧
    (∀ r ∈ (onmessage cfg env s m).speakRequests,
      r.isFrenchOutput = false → r.lang = "en-US") := by
  have h := handleTranscription_enUS env cfg s m hAuto hhost hlast hreqs
  constructor
  · show (applyInterrupted cfg (applyAudio cfg env (handleTranscription env cfg s m) m)
      m).lastClientLanguage = "en-US"
    rw [applyInterrupted_lastClientLanguage, applyAudio_lastClientLanguage]
    exact h.1
  · intro r hr
    have heq : (onmessage cfg env s m).speakRequests =
        (handleTranscription env cfg s m).speakRequests := by
      show (applyInterrupted cfg (applyAudio cfg env (handleTranscription env cfg s m) m)
        m).speakRequests = _
      rw [applyInterrupted_speakRequests, applyAudio_speakRequests]
    have hr2 : r ∈ (handleTranscription env cfg s m).speakRequests := by
      rw [heq] at hr
      exact hr
    exact h.2 r hr2

theorem processMessages_enUS (cfg : Config) (hAuto : cfg.targetLanguage = "Auto") :
    ∀ (ems : List (Env × ServerMsg)) (s : AppState),
    (∀ em ∈ ems, onlyHostTags em.2 = true) →
    s.lastClientLanguage = "en-US" →
    (∀ r ∈ s.speakRequests, r.isFrenchOutput = false → r.lang = "en-US") →
    (processMessages cfg s ems).lastClientLanguage = "en-US" ∧
    (∀ r ∈ (processMessages cfg s ems).speakRequests,
      r.isFrenchOutput = false → r.lang = "en-US") := by
  intro ems
  induction ems with
  | nil => exact fun s _ h1 h2 => ⟨h1, h2⟩
  | cons em rest ih =>
    intro s hh h1 h2
    have hstep := onmessage_enUS cfg em.1 s em.2 hAuto
      (hh em (List.mem_cons_self _ _)) h1 h2
    exact ih (onmessage cfg em.1 s em.2)
      (fun x hx => hh x (List.mem_cons_of_mem _ hx)) hstep.1 hstep.2

/-- C10: `lastClientLanguageRef` starts at `en-US`; in automatic target
mode, as long as no non-host language tag has been observed, it stays
`en-US` and every fallback speak request routed to the client/target side
uses utterance language `en-US`; and whenever the stored tag has no locale
mapping, the client-side resolution also falls back to `en-US`. -/
theorem default_client_language (cfg : Config) (ems : List (Env × ServerMsg))
    (hAuto : cfg.targetLanguage = "Auto")
    (hhost : ∀ em ∈ ems, onlyHostTags em.2 = true) :
    initApp.lastClientLanguage = "en-US" ∧
    (processMessages cfg initApp ems).lastClientLanguage = "en-US" ∧
    (∀ r ∈ (processMessages cfg initApp ems).speakRequests,
      r.isFrenchOutput = false → r.lang = "en-US") ∧
    (∀ lc : String, mapLanguageCodeToLocale lc = none →
      resolveSpeakLang cfg lc false = "en-US") := by
  have h := processMessages_enUS cfg hAuto ems initApp hhost rfl
    (by intro r hr; simp [initApp] at hr)
  refine ⟨rfl, h.1, h.2, ?_⟩
  intro lc hmap
  simp [resolveSpeakLang, hAuto, hmap]

/-- C10 witness: a host tag, then a model turn finalized with the fallback
active, before any non-host tag was ever observed; and a tag with no
locale mapping. -/
theorem default_client_language_check :
    cfgTTS.targetLanguage = "Auto" ∧
    onlyHostTags (msgTag "fr-FR") = true ∧
    initApp.lastClientLanguage = "en-US" ∧
    (processMessages cfgTTS initApp
        [(env0, msgTag "fr-FR"), (env0, msgOutputText "Hola"),
         (env0, msgTC)]).lastClientLanguage = "en-US" ∧
    mapLanguageCodeToLocale "zz-XX" = none ∧
    resolveSpeakLang cfgTTS "zz-XX" false = "en-US" :=
  ⟨rfl, by decide, rfl,
   (default_client_language cfgTTS
     [(env0, msgTag "fr-FR"), (env0, msgOutputText "Hola"), (env0, msgTC)]
     rfl (by decide)).2.1,
   by decide,
   (default_client_language cfgTTS
     [(env0, msgTag "fr-FR"), (env0, msgOutputText "Hola"), (env0, msgTC)]
     rfl (by decide)).2.2.2 "zz-XX" (by decide)⟩

end Interp
